import Mathlib

/-!
Shallow embedding of the obs-websocket RPC proxy contract and the
magic-link login flow declared in `src/electron.env.d.ts` of
own3d/electron-types.  The declaration file ships no implementations,
so the behavioural components (Transport, Correlator, Batch Executor,
Event Hub, Login Flow Controller) are modelled from the accompanying
specification; each such definition is marked `Modelled from the spec`.
-/

/-- Error taxonomy of the RPC proxy and login flow (spec section 7). -/
inductive RpcError where
  | connectionError
  | authenticationError
  | connectionLostError
  | batchExecutionError
  | notInstalledError
  | alreadyInProgressError
  | timeoutError
  | invalidCallbackError
  deriving Repr, DecidableEq

/-- The `requestStatus` discriminator of a `ResponseMessage`
(src/electron.env.d.ts lines 510-517): either a success with a code, or
a failure with a code and a human-readable comment. -/
inductive RequestStatus where
  | ok (code : Nat)
  | err (code : Nat) (comment : String)
  deriving Repr, DecidableEq

/-- The obs-websocket `ResponseMessage` envelope
(src/electron.env.d.ts lines 504-519).  Request identifiers come from a
monotonic counter (spec section 4.2), embedded as `Nat`. -/
structure ResponseMessage where
  requestType : String
  requestId : Nat
  requestStatus : RequestStatus
  responseData : String
  deriving Repr, DecidableEq

/-- A PendingRequest of the Correlator's table (spec section 3):
requestId, requestType and submission time. -/
structure PendingRequest where
  requestId : Nat
  requestType : String
  submittedAt : Nat
  deriving Repr, DecidableEq

/-- The final outcome written into a call's result slot: either the
full response envelope, or a proxy-level failure. -/
inductive Outcome where
  | resolved (resp : ResponseMessage)
  | failed (e : RpcError)
  deriving Repr, DecidableEq

/-- Modelled from the spec: the Correlator (section 4.2) holds a
monotonic requestId counter, a clock, the table of in-flight
PendingRequests and the log of result-slot writes (one entry per
resolution or failure, in write order). -/
structure Correlator where
  nextId : Nat
  clock : Nat
  pending : List PendingRequest
  outcomes : List (Nat × Outcome)
  deriving Repr, DecidableEq

def Correlator.init : Correlator := ⟨0, 0, [], []⟩

/-- Modelled from the spec: `submit` (spec section 4.2, the engine
behind `electron.obs.call`) generates a fresh requestId from the
monotonic counter, stores a PendingRequest and returns the id of the
caller's pending operation. -/
def Correlator.submit (c : Correlator) (requestType : String) :
    Nat × Correlator :=
  (c.nextId,
   { c with
      nextId := c.nextId + 1,
      pending := c.pending ++ [⟨c.nextId, requestType, c.clock⟩] })

/-- Modelled from the spec: delivery of an inbound response.  If the
response's requestId matches a PendingRequest, that entry is removed
and its result slot resolved with the full envelope; otherwise the
message is not for the Correlator (it goes to the Event Hub). -/
def Correlator.deliver (c : Correlator) (resp : ResponseMessage) :
    Correlator :=
  if c.pending.any (fun p => p.requestId == resp.requestId) then
    { c with
        pending := c.pending.filter (fun p => p.requestId != resp.requestId),
        outcomes := c.outcomes ++ [(resp.requestId, Outcome.resolved resp)] }
  else c

/-- Modelled from the spec: on connection loss every outstanding
PendingRequest is failed with `ConnectionLostError` and the table is
cleared (spec section 4.2). -/
def Correlator.connLost (c : Correlator) : Correlator :=
  { c with
      pending := [],
      outcomes := c.outcomes ++
        c.pending.map
          (fun p => (p.requestId, Outcome.failed RpcError.connectionLostError)) }

/-- Modelled from the spec: passage of time only advances the clock;
the Correlator imposes no per-call timeout (spec section 4.2). -/
def Correlator.tick (c : Correlator) (dt : Nat) : Correlator :=
  { c with clock := c.clock + dt }

/-- All result-slot writes recorded for request `id`, in write order.
A request resolved exactly once has a singleton list here. -/
def Correlator.resultsFor (c : Correlator) (id : Nat) : List Outcome :=
  (c.outcomes.filter (fun o => o.1 == id)).map (fun o => o.2)

/-- Claim C1: three calls A, B, C submitted in order obtain distinct
requestIds; if the server delivers their responses in reverse arrival
order (C, then B, then A), each call's result slot is still resolved
exactly once with the payload carrying that call's own requestId —
correlation is by requestId, not by arrival order. -/
theorem call_correlation_under_reordering
    (tA tB tC dA dB dC : String) (sA sB sC : RequestStatus) :
    let c1 := (Correlator.init.submit tA).2
    let c2 := (c1.submit tB).2
    let c3 := (c2.submit tC).2
    let idA := (Correlator.init.submit tA).1
    let idB := (c1.submit tB).1
    let idC := (c2.submit tC).1
    let rA : ResponseMessage := ⟨tA, idA, sA, dA⟩
    let rB : ResponseMessage := ⟨tB, idB, sB, dB⟩
    let rC : ResponseMessage := ⟨tC, idC, sC, dC⟩
    let cF := ((c3.deliver rC).deliver rB).deliver rA
    cF.resultsFor idA = [Outcome.resolved rA] ∧
    cF.resultsFor idB = [Outcome.resolved rB] ∧
    cF.resultsFor idC = [Outcome.resolved rC] ∧
    cF.pending = [] := by
  simp [Correlator.init, Correlator.submit, Correlator.deliver,
        Correlator.resultsFor]

/-- Helper: the failure entries generated on connection loss, filtered
to a particular pending requestId, consist of exactly that request's
single failure entry (given distinct pending ids). -/
theorem connLost_failures_filter (p : PendingRequest) :
    ∀ (l : List PendingRequest),
      (l.map (fun q => q.requestId)).Nodup → p ∈ l →
      (l.map (fun q =>
          (q.requestId, Outcome.failed RpcError.connectionLostError))).filter
        (fun o => o.1 == p.requestId)
        = [(p.requestId, Outcome.failed RpcError.connectionLostError)] := by
  intro l
  induction l with
  | nil => intro _ h; cases h
  | cons q l ih =>
    intro hnd hp
    simp only [List.map_cons, List.nodup_cons] at hnd
    rcases List.mem_cons.mp hp with hpq | hpl
    · subst hpq
      simp only [List.map_cons, List.filter_cons, beq_self_eq_true, if_pos]
      have htail :
          (l.map (fun q =>
            (q.requestId, Outcome.failed RpcError.connectionLostError))).filter
            (fun o => o.1 == p.requestId) = [] := by
        rw [List.filter_eq_nil_iff]
        intro o ho
        rcases List.mem_map.mp ho with ⟨r, hr, hro⟩
        subst hro
        intro hid
        have hid' : r.requestId = p.requestId := eq_of_beq hid
        exact hnd.1 (hid' ▸ List.mem_map.mpr ⟨r, hr, rfl⟩)
      simp [htail]
    · have hne : q.requestId ≠ p.requestId := by
        intro hid
        exact hnd.1 (hid ▸ List.mem_map.mpr ⟨p, hpl, rfl⟩)
      simp only [List.map_cons, List.filter_cons]
      rw [if_neg (by simp [hne])]
      exact ih hnd.2 hpl

/-- Claim C3: if the connection is lost (or `disconnect` is invoked)
while requests are pending, every outstanding PendingRequest is failed
with `ConnectionLostError`, each exactly once (its result slot holds
the single failure entry), and the pending table is empty afterward. -/
theorem disconnect_fails_all_pending (c : Correlator)
    (hIds : (c.pending.map (fun p => p.requestId)).Nodup)
    (hFresh : ∀ p ∈ c.pending, c.resultsFor p.requestId = []) :
    c.connLost.pending = [] ∧
    c.connLost.outcomes.length = c.outcomes.length + c.pending.length ∧
    ∀ p ∈ c.pending,
      c.connLost.resultsFor p.requestId
        = [Outcome.failed RpcError.connectionLostError] := by
  refine ⟨rfl, ?_, ?_⟩
  · simp [Correlator.connLost]
  · intro p hp
    have hfe : c.outcomes.filter (fun o => o.1 == p.requestId) = [] := by
      have h := hFresh p hp
      unfold Correlator.resultsFor at h
      exact List.map_eq_nil_iff.mp h
    unfold Correlator.resultsFor Correlator.connLost
    simp only [List.filter_append, hfe, List.nil_append,
      connLost_failures_filter p c.pending hIds hp]
    rfl

/-- Witness for C3 at a concrete correlator with two pending calls. -/
theorem disconnect_fails_all_pending_witness :
    ((((Correlator.init.submit "GetVersion").2.submit "GetStats").2.pending.map
        (fun p => p.requestId)).Nodup) ∧
    ((Correlator.init.submit "GetVersion").2.submit "GetStats").2.connLost.pending
      = [] ∧
    ((Correlator.init.submit "GetVersion").2.submit "GetStats").2.connLost.outcomes.length
      = ((Correlator.init.submit "GetVersion").2.submit "GetStats").2.outcomes.length
        + ((Correlator.init.submit "GetVersion").2.submit "GetStats").2.pending.length :=
  ⟨by decide,
   (disconnect_fails_all_pending _ (by decide) (by decide)).1,
   (disconnect_fails_all_pending _ (by decide) (by decide)).2.1⟩

/-- Events that can reach the Correlator (spec sections 4.2 and 5): a
new submission, an inbound response, the connection-loss signal, and
the passage of time. -/
inductive CorrEvent where
  | submit (requestType : String)
  | deliver (resp : ResponseMessage)
  | connLost
  | tick (dt : Nat)
  deriving Repr, DecidableEq

/-- Modelled from the spec: one step of the Correlator under an event. -/
def Correlator.step (c : Correlator) : CorrEvent → Correlator
  | CorrEvent.submit rt => (c.submit rt).2
  | CorrEvent.deliver r => c.deliver r
  | CorrEvent.connLost => c.connLost
  | CorrEvent.tick dt => c.tick dt

/-- Claim C8: no per-call timeout exists at the Correlator layer.  A
pending request leaves the table only through the arrival of its
matching response or the connection-loss signal; the passage of time
(`tick`) changes neither the pending table nor any result slot. -/
theorem no_per_call_timeout (c : Correlator) (e : CorrEvent)
    (p : PendingRequest) (hp : p ∈ c.pending)
    (hq : p ∉ (c.step e).pending) :
    ((∃ r, e = CorrEvent.deliver r ∧ r.requestId = p.requestId) ∨
      e = CorrEvent.connLost) ∧
    ∀ dt, (c.step (CorrEvent.tick dt)).pending = c.pending ∧
      (c.step (CorrEvent.tick dt)).outcomes = c.outcomes := by
  constructor
  · cases e with
    | submit rt =>
      exfalso
      apply hq
      simp only [Correlator.step, Correlator.submit]
      exact List.mem_append_left _ hp
    | deliver r =>
      by_cases hc : c.pending.any (fun q => q.requestId == r.requestId)
      · left
        refine ⟨r, rfl, ?_⟩
        have hpend : (c.step (CorrEvent.deliver r)).pending
            = c.pending.filter (fun q => q.requestId != r.requestId) := by
          simp [Correlator.step, Correlator.deliver, hc]
        by_contra hne
        apply hq
        rw [hpend]
        refine List.mem_filter.mpr ⟨hp, ?_⟩
        simp only [bne_iff_ne, ne_eq]
        exact fun h => hne (h ▸ rfl)
      · exfalso
        apply hq
        simpa [Correlator.step, Correlator.deliver, hc] using hp
    | connLost => right; rfl
    | tick dt => exact absurd hp hq
  · intro dt; exact ⟨rfl, rfl⟩

/-- Witness for C8: a concrete pending call is settled only by its
matching response delivery. -/
theorem no_per_call_timeout_witness :
    (⟨0, "GetVersion", 0⟩ : PendingRequest) ∈
        (Correlator.init.submit "GetVersion").2.pending ∧
    (⟨0, "GetVersion", 0⟩ : PendingRequest) ∉
        ((Correlator.init.submit "GetVersion").2.step
          (CorrEvent.deliver ⟨"GetVersion", 0, RequestStatus.ok 100, "v30"⟩)).pending ∧
    ((∃ r, CorrEvent.deliver
          (⟨"GetVersion", 0, RequestStatus.ok 100, "v30"⟩ : ResponseMessage)
          = CorrEvent.deliver r ∧
        r.requestId
          = (⟨0, "GetVersion", 0⟩ : PendingRequest).requestId) ∨
      CorrEvent.deliver
          (⟨"GetVersion", 0, RequestStatus.ok 100, "v30"⟩ : ResponseMessage)
        = CorrEvent.connLost) :=
  ⟨by decide, by decide,
   (no_per_call_timeout (Correlator.init.submit "GetVersion").2
      (CorrEvent.deliver ⟨"GetVersion", 0, RequestStatus.ok 100, "v30"⟩)
      ⟨0, "GetVersion", 0⟩ (by decide) (by decide)).1⟩

/-- A Subscription of the Event Hub (spec section 3): handler identity
and the one-shot flag. -/
structure Subscription where
  handlerId : Nat
  once : Bool
  deriving Repr, DecidableEq

/-- Modelled from the spec: the Event Hub stores, per event name, the
ordered set of subscriptions (registration order = invocation order,
spec sections 3 and 4.4). -/
structure EventHub where
  subs : List (String × Subscription)
  deriving Repr, DecidableEq

def EventHub.empty : EventHub := ⟨[]⟩

/-- The subscriptions currently registered for an event name, in
registration order. -/
def EventHub.handlersFor (h : EventHub) (event : String) :
    List Subscription :=
  (h.subs.filter (fun s => s.1 == event)).map (fun s => s.2)

/-- Modelled from the spec: `on` registers a persistent handler
(src/electron.env.d.ts lines 610-615). -/
def EventHub.on (h : EventHub) (event : String) (handlerId : Nat) :
    EventHub :=
  ⟨h.subs ++ [(event, ⟨handlerId, false⟩)]⟩

/-- Modelled from the spec: `once` registers a one-shot handler
(src/electron.env.d.ts lines 617-623). -/
def EventHub.once (h : EventHub) (event : String) (handlerId : Nat) :
    EventHub :=
  ⟨h.subs ++ [(event, ⟨handlerId, true⟩)]⟩

/-- Remove the first subscription for `event` with handler identity
`handlerId` (spec section 4.4: `off` removes a specific handler
instance; a missing handler is a no-op). -/
def removeFirstBy (subs : List (String × Subscription)) (event : String)
    (handlerId : Nat) : List (String × Subscription) :=
  match subs with
  | [] => []
  | s :: rest =>
      if s.1 == event && s.2.handlerId == handlerId then rest
      else s :: removeFirstBy rest event handlerId

/-- Modelled from the spec: `off` removes one matching handler
instance; removing an unregistered handler is a no-op. -/
def EventHub.off (h : EventHub) (event : String) (handlerId : Nat) :
    EventHub :=
  ⟨removeFirstBy h.subs event handlerId⟩

/-- Remove the first subscription equal to the given instance under
the given event name (used by dispatch to drop a one-shot entry). -/
def removeFirstSub (subs : List (String × Subscription)) (event : String)
    (sub : Subscription) : List (String × Subscription) :=
  match subs with
  | [] => []
  | s :: rest =>
      if s.1 == event && s.2.handlerId == sub.handlerId
          && s.2.once == sub.once then rest
      else s :: removeFirstSub rest event sub

/-- Effects a handler may perform reentrantly on the hub while being
invoked: registering or deregistering handlers. -/
inductive HandlerCmd where
  | register (event : String) (handlerId : Nat) (oneShot : Bool)
  | deregister (event : String) (handlerId : Nat)
  deriving Repr, DecidableEq

def EventHub.runCmd (h : EventHub) : HandlerCmd → EventHub
  | HandlerCmd.register e i o => if o then h.once e i else h.on e i
  | HandlerCmd.deregister e i => h.off e i

def EventHub.runCmds (h : EventHub) (cmds : List HandlerCmd) : EventHub :=
  cmds.foldl EventHub.runCmd h

/-- State threaded through one dispatch: the live hub and the
invocation log as (handlerId, payload) pairs. -/
structure DispatchState where
  hub : EventHub
  log : List (Nat × String)
  deriving Repr, DecidableEq

/-- Modelled from the spec: invoke one subscription from a dispatch
snapshot (spec section 4.4).  A one-shot subscription is removed from
the live set immediately before invocation; the invocation is recorded
in the log and the handler's own reentrant effects are then applied. -/
def invokeOne (scripts : Nat → List HandlerCmd) (event payload : String)
    (st : DispatchState) (s : Subscription) : DispatchState :=
  let hub1 :=
    if s.once then EventHub.mk (removeFirstSub st.hub.subs event s)
    else st.hub
  ⟨hub1.runCmds (scripts s.handlerId), st.log ++ [(s.handlerId, payload)]⟩

/-- Modelled from the spec: emitting an event dispatches to a snapshot
of the subscriber set taken at emission time, in registration order
(spec section 4.4). -/
def EventHub.emit (h : EventHub) (scripts : Nat → List HandlerCmd)
    (event payload : String) (log : List (Nat × String)) : DispatchState :=
  (h.handlersFor event).foldl (invokeOne scripts event payload) ⟨h, log⟩

/-- Claim C6: a handler registered via `once` for event E is invoked
exactly once when E is emitted twice, and the second emission finds
zero active handlers for E; the subscription is removed before its
invocation, so delivery stays at-most-once within a dispatch even when
the handler re-registers itself reentrantly during that dispatch. -/
theorem once_handler_at_most_once (E p1 p2 : String) (hid : Nat) :
    (EventHub.emit (EventHub.once EventHub.empty E hid)
        (fun _ => []) E p1 []).log
      = [(hid, p1)] ∧
    EventHub.handlersFor
        (EventHub.emit (EventHub.once EventHub.empty E hid)
          (fun _ => []) E p1 []).hub E
      = [] ∧
    (EventHub.emit
        (EventHub.emit (EventHub.once EventHub.empty E hid)
          (fun _ => []) E p1 []).hub
        (fun _ => []) E p2
        (EventHub.emit (EventHub.once EventHub.empty E hid)
          (fun _ => []) E p1 []).log).log
      = [(hid, p1)] ∧
    (EventHub.emit (EventHub.once EventHub.empty E hid)
        (fun i => if i == hid then [HandlerCmd.register E hid true] else [])
        E p1 []).log
      = [(hid, p1)] := by
  simp [EventHub.empty, EventHub.once, EventHub.emit, EventHub.handlersFor,
        invokeOne, removeFirstSub, EventHub.runCmds, EventHub.runCmd]

/-- obs-websocket request batch execution type
(src/electron.env.d.ts lines 485-490). -/
inductive RequestBatchExecutionType where
  | none
  | serialRealtime
  | serialFrame
  | parallel
  deriving Repr, DecidableEq

/-- Wire values of the execution types (src/electron.env.d.ts lines
485-490: None = -1, SerialRealtime = 0, SerialFrame = 1, Parallel = 2). -/
def RequestBatchExecutionType.toInt : RequestBatchExecutionType → Int
  | RequestBatchExecutionType.none => -1
  | RequestBatchExecutionType.serialRealtime => 0
  | RequestBatchExecutionType.serialFrame => 1
  | RequestBatchExecutionType.parallel => 2

/-- obs-websocket request batch request entry
(src/electron.env.d.ts lines 495-502): a requestType, an optional
requestId and optional request data. -/
structure RequestBatchRequest where
  requestType : String
  requestId : Option Nat
  requestData : Option String
  deriving Repr, DecidableEq

/-- obs-websocket request batch options
(src/electron.env.d.ts lines 471-480). -/
structure RequestBatchOptions where
  executionType : Option RequestBatchExecutionType
  haltOnFailure : Option Bool
  deriving Repr, DecidableEq

/-- Modelled from the spec: the resolved execution type defaults to
SerialRealtime (spec section 4.3). -/
def RequestBatchOptions.resolvedExecutionType (o : RequestBatchOptions) :
    RequestBatchExecutionType :=
  o.executionType.getD RequestBatchExecutionType.serialRealtime

/-- Modelled from the spec: halt-on-failure defaults to false
(spec section 4.3). -/
def RequestBatchOptions.resolvedHaltOnFailure (o : RequestBatchOptions) :
    Bool :=
  o.haltOnFailure.getD false

/-- Modelled from the spec: each batch entry is auto-assigned a
requestId if absent (spec section 4.3); ids are taken positionally
from the monotonic counter base. -/
def assignRequestIds : Nat → List RequestBatchRequest →
    List RequestBatchRequest
  | _, [] => []
  | base, r :: rs =>
      { r with requestId := some (r.requestId.getD base) }
        :: assignRequestIds (base + 1) rs

def defaultBatchRequest : RequestBatchRequest := ⟨"", none, none⟩

def defaultResponseMessage : ResponseMessage := ⟨"", 0, RequestStatus.ok 0, ""⟩

/-- Modelled from the spec: server-side execution of the batch entry
at position `i`; its ResponseMessage echoes the entry's requestType
and requestId, with the per-entry outcome given by `behavior`. -/
def execBatchEntry (reqs : List RequestBatchRequest)
    (behavior : Nat → RequestStatus × String) (i : Nat) : ResponseMessage :=
  let r := reqs.getD i defaultBatchRequest
  ⟨r.requestType, r.requestId.getD i, (behavior i).1, (behavior i).2⟩

/-- Modelled from the spec: entries complete in the completion order
`order`, each writing its result into the slot of its own position —
the protocol preserves order, so re-association is by position
(spec section 4.3). -/
def runCompletionOrder (reqs : List RequestBatchRequest)
    (behavior : Nat → RequestStatus × String) (order : List Nat) :
    List (Option ResponseMessage) :=
  order.foldl
    (fun slots i => slots.set i (some (execBatchEntry reqs behavior i)))
    (List.replicate reqs.length none)

/-- Modelled from the spec: the composite response returned once all
entries have finished, read out of the slots in positional order. -/
def collectBatch (reqs : List RequestBatchRequest)
    (behavior : Nat → RequestStatus × String) (order : List Nat) :
    List ResponseMessage :=
  (runCompletionOrder reqs behavior order).map
    (fun s => s.getD defaultResponseMessage)

/-- Modelled from the spec: `callBatch` submits the ordered request
list as one composite request (ids auto-assigned) and splits the
composite response back by position (spec section 4.3); `order` is the
server-side completion order. -/
def callBatch (reqs : List RequestBatchRequest)
    (opts : RequestBatchOptions)
    (behavior : Nat → RequestStatus × String) (order : List Nat) :
    List ResponseMessage :=
  collectBatch (assignRequestIds 0 reqs) behavior order

/-- Modelled from the spec: the completion orders an execution mode can
produce — serial modes complete in submission order, while parallel
execution may complete in any permutation of the positions
(spec sections 4.3 and 5). -/
def admissibleOrder (opts : RequestBatchOptions) (n : Nat)
    (order : List Nat) : Prop :=
  if opts.resolvedExecutionType = RequestBatchExecutionType.parallel
  then order.Perm (List.range n)
  else order = List.range n

/-- Helper: slot-filling folds preserve the slot-array length. -/
theorem runCompletionOrder_fold_length (reqs : List RequestBatchRequest)
    (behavior : Nat → RequestStatus × String) :
    ∀ (order : List Nat) (init : List (Option ResponseMessage)),
      (order.foldl
        (fun slots i => slots.set i (some (execBatchEntry reqs behavior i)))
        init).length = init.length := by
  intro order
  induction order with
  | nil => intro init; rfl
  | cons j rest ih =>
    intro init
    rw [List.foldl_cons, ih, List.length_set]

/-- Helper: after the slot-filling fold, a slot holds its own entry's
result exactly when its position occurs in the completion order. -/
theorem runCompletionOrder_fold_getElem (reqs : List RequestBatchRequest)
    (behavior : Nat → RequestStatus × String) :
    ∀ (order : List Nat) (init : List (Option ResponseMessage)) (i : Nat),
      i < init.length →
      (order.foldl
        (fun slots i => slots.set i (some (execBatchEntry reqs behavior i)))
        init)[i]?
        = if i ∈ order then some (some (execBatchEntry reqs behavior i))
          else init[i]? := by
  intro order
  induction order with
  | nil => intro init i _; simp
  | cons j rest ih =>
    intro init i hi
    rw [List.foldl_cons,
        ih (init.set j (some (execBatchEntry reqs behavior j))) i
          (by rw [List.length_set]; exact hi)]
    by_cases hmem : i ∈ rest
    · simp [hmem]
    · by_cases hij : i = j
      · subst hij
        simp [hmem, List.getElem?_set_eq_of_lt _ hi]
      · simp [hmem, hij, List.getElem?_set_ne (Ne.symm hij)]

/-- Helper: id auto-assignment preserves the batch length. -/
theorem assignRequestIds_length :
    ∀ (base : Nat) (reqs : List RequestBatchRequest),
      (assignRequestIds base reqs).length = reqs.length := by
  intro base reqs
  induction reqs generalizing base with
  | nil => rfl
  | cons r rs ih => simp [assignRequestIds, ih]

/-- Helper: id auto-assignment preserves every entry's requestType. -/
theorem assignRequestIds_requestType :
    ∀ (base : Nat) (reqs : List RequestBatchRequest) (i : Nat),
      ((assignRequestIds base reqs).getD i defaultBatchRequest).requestType
        = (reqs.getD i defaultBatchRequest).requestType := by
  intro base reqs
  induction reqs generalizing base with
  | nil => intro i; rfl
  | cons r rs ih =>
    intro i
    cases i with
    | zero => rfl
    | succ n =>
      simp only [assignRequestIds, List.getD_cons_succ]
      exact ih (base + 1) n

/-- Helper: the composite response of a fully completed batch, read at
any position. -/
theorem callBatch_getElem (reqs : List RequestBatchRequest)
    (opts : RequestBatchOptions)
    (behavior : Nat → RequestStatus × String) (order : List Nat)
    (hperm : order.Perm (List.range reqs.length)) (i : Nat) :
    (callBatch reqs opts behavior order)[i]?
      = if i < reqs.length
        then some (execBatchEntry (assignRequestIds 0 reqs) behavior i)
        else none := by
  unfold callBatch collectBatch runCompletionOrder
  rw [List.getElem?_map]
  by_cases hi : i < reqs.length
  · have hlen : i < (List.replicate (assignRequestIds 0 reqs).length
        (none : Option ResponseMessage)).length := by
      rw [List.length_replicate, assignRequestIds_length]
      exact hi
    rw [runCompletionOrder_fold_getElem _ _ order _ i hlen]
    have hmem : i ∈ order := hperm.mem_iff.mpr (List.mem_range.mpr hi)
    simp [hmem, hi]
  · have hge : (List.replicate (assignRequestIds 0 reqs).length
        (none : Option ResponseMessage)).length ≤ i := by
      rw [List.length_replicate, assignRequestIds_length]
      exact Nat.le_of_not_lt hi
    rw [List.getElem?_eq_none
        (by rw [runCompletionOrder_fold_length]; exact hge)]
    simp [hi]

/-- Claim C2: for a batch of N requests (any options, including
executionType=Parallel) the resolved result list has length exactly N,
the result at each position i carries requests[i]'s requestType, and
the result order equals submission order regardless of the server-side
completion order. -/
theorem callBatch_positional_integrity (reqs : List RequestBatchRequest)
    (opts : RequestBatchOptions)
    (behavior : Nat → RequestStatus × String) (order : List Nat)
    (hord : admissibleOrder opts reqs.length order) :
    (callBatch reqs opts behavior order).length = reqs.length ∧
    (∀ i : Nat, i < reqs.length →
      ((callBatch reqs opts behavior order).getD i
          defaultResponseMessage).requestType
        = (reqs.getD i defaultBatchRequest).requestType) ∧
    callBatch reqs opts behavior order
      = callBatch reqs opts behavior (List.range reqs.length) := by
  have hperm : order.Perm (List.range reqs.length) := by
    unfold admissibleOrder at hord
    split at hord
    · exact hord
    · rw [hord]
  refine ⟨?_, ?_, ?_⟩
  · unfold callBatch collectBatch runCompletionOrder
    rw [List.length_map, runCompletionOrder_fold_length,
        List.length_replicate, assignRequestIds_length]
  · intro i hi
    have h := callBatch_getElem reqs opts behavior order hperm i
    rw [if_pos hi] at h
    rw [List.getD_eq_getElem?_getD, h]
    simpa [execBatchEntry] using assignRequestIds_requestType 0 reqs i
  · apply List.ext_getElem?
    intro i
    rw [callBatch_getElem reqs opts behavior order hperm i,
        callBatch_getElem reqs opts behavior (List.range reqs.length)
          (List.Perm.refl _) i]

def batchReqsW : List RequestBatchRequest :=
  [⟨"CreateSceneCollection", none, none⟩, ⟨"CreateScene", none, none⟩]

def batchOptsW : RequestBatchOptions :=
  ⟨some RequestBatchExecutionType.parallel, some false⟩

def batchBehaviorW : Nat → RequestStatus × String :=
  fun _ => (RequestStatus.ok 100, "")

/-- Witness for C2 at a concrete parallel batch of two requests whose
server-side completion order is reversed. -/
theorem callBatch_positional_integrity_witness :
    admissibleOrder batchOptsW batchReqsW.length [1, 0] ∧
    (callBatch batchReqsW batchOptsW batchBehaviorW [1, 0]).length
      = batchReqsW.length ∧
    callBatch batchReqsW batchOptsW batchBehaviorW [1, 0]
      = callBatch batchReqsW batchOptsW batchBehaviorW
          (List.range batchReqsW.length) :=
  ⟨by unfold admissibleOrder; decide,
   (callBatch_positional_integrity batchReqsW batchOptsW batchBehaviorW
      [1, 0] (by unfold admissibleOrder; decide)).1,
   (callBatch_positional_integrity batchReqsW batchOptsW batchBehaviorW
      [1, 0] (by unfold admissibleOrder; decide)).2.2⟩

/-- Modelled from the spec: the distinguished Skipped result filling a
position the server never executed under haltOnFailure (spec section
4.3); it echoes the request's type and id with a failure status. -/
def mkSkipped (r : RequestBatchRequest) : ResponseMessage :=
  ⟨r.requestType, r.requestId.getD 0, RequestStatus.err 0 "skipped", ""⟩

/-- Modelled from the spec: positional re-association of a composite
response with its request list; positions past the end of the returned
results resolve as Skipped rather than being dropped (spec section
4.3). -/
def padResults : List RequestBatchRequest → List ResponseMessage →
    List ResponseMessage
  | [], _ => []
  | _ :: reqs, r :: rs => r :: padResults reqs rs
  | req :: reqs, [] => mkSkipped req :: padResults reqs []

/-- Modelled from the spec: the per-position results handed back by
`callBatch` under the halt-on-failure policy — with haltOnFailure set
the possibly truncated server result list is padded back to the
request list's length. -/
def resolveBatchResults (opts : RequestBatchOptions)
    (reqs : List RequestBatchRequest) (server : List ResponseMessage) :
    List ResponseMessage :=
  if opts.resolvedHaltOnFailure then padResults reqs server else server

/-- Helper: padding restores a 1:1 positional correspondence with the
request list. -/
theorem padResults_length :
    ∀ (reqs : List RequestBatchRequest) (rs : List ResponseMessage),
      (padResults reqs rs).length = reqs.length := by
  intro reqs
  induction reqs with
  | nil => intro rs; rfl
  | cons req reqs ih =>
    intro rs
    cases rs with
    | nil => simp [padResults, ih]
    | cons r rs => simp [padResults, ih]

/-- Helper: positions the server did answer keep the server's entry. -/
theorem padResults_getElem_lt :
    ∀ (reqs : List RequestBatchRequest) (rs : List ResponseMessage)
      (i : Nat), i < rs.length → i < reqs.length →
      (padResults reqs rs)[i]? = rs[i]? := by
  intro reqs
  induction reqs with
  | nil => intro rs i _ h; exact absurd h (Nat.not_lt_zero i)
  | cons req reqs ih =>
    intro rs i hrs hreqs
    cases rs with
    | nil => exact absurd hrs (Nat.not_lt_zero i)
    | cons r rs =>
      cases i with
      | zero => simp [padResults]
      | succ n =>
        simp only [padResults, List.getElem?_cons_succ]
        exact ih rs n (Nat.lt_of_succ_lt_succ hrs)
          (Nat.lt_of_succ_lt_succ hreqs)

/-- Helper: positions past the server's returned results resolve as
the Skipped result of their own request. -/
theorem padResults_getElem_ge :
    ∀ (reqs : List RequestBatchRequest) (rs : List ResponseMessage)
      (i : Nat), rs.length ≤ i →
      (padResults reqs rs)[i]? = (reqs[i]?).map mkSkipped := by
  intro reqs
  induction reqs with
  | nil => intro rs i _; simp [padResults]
  | cons req reqs ih =>
    intro rs i hle
    cases rs with
    | nil =>
      cases i with
      | zero => simp [padResults]
      | succ n =>
        simp only [padResults, List.getElem?_cons_succ]
        exact ih [] n (Nat.zero_le n)
    | cons r rs =>
      cases i with
      | zero => exact absurd hle (by simp)
      | succ n =>
        simp only [padResults, List.getElem?_cons_succ]
        exact ih rs n (Nat.le_of_succ_le_succ hle)

/-- Claim C7: for a batch with haltOnFailure set whose server halts
early and returns fewer result entries than requests, the resolved
array still has one entry per request: answered positions keep their
server entry and the missing trailing positions are filled with the
Skipped result rather than dropped. -/
theorem haltOnFailure_pads_skipped (opts : RequestBatchOptions)
    (reqs : List RequestBatchRequest) (server : List ResponseMessage)
    (hHalt : opts.resolvedHaltOnFailure = true)
    (hLen : server.length ≤ reqs.length) :
    (resolveBatchResults opts reqs server).length = reqs.length ∧
    (∀ i : Nat, i < server.length →
      (resolveBatchResults opts reqs server)[i]? = server[i]?) ∧
    (∀ i : Nat, server.length ≤ i →
      (resolveBatchResults opts reqs server)[i]?
        = (reqs[i]?).map mkSkipped) := by
  unfold resolveBatchResults
  rw [if_pos hHalt]
  refine ⟨padResults_length reqs server, ?_, ?_⟩
  · intro i hi
    exact padResults_getElem_lt reqs server i hi (Nat.lt_of_lt_of_le hi hLen)
  · intro i hi
    exact padResults_getElem_ge reqs server i hi

def haltOptsW : RequestBatchOptions := ⟨none, some true⟩

def haltReqsW : List RequestBatchRequest :=
  [⟨"CreateSceneCollection", none, none⟩,
   ⟨"CreateScene", none, none⟩,
   ⟨"CreateInput", none, none⟩]

def haltServerW : List ResponseMessage :=
  [⟨"CreateSceneCollection", 0, RequestStatus.err 600 "failed", ""⟩]

/-- Witness for C7 at a concrete three-request batch whose server
halted after the first entry. -/
theorem haltOnFailure_pads_skipped_witness :
    haltOptsW.resolvedHaltOnFailure = true ∧
    haltServerW.length ≤ haltReqsW.length ∧
    (resolveBatchResults haltOptsW haltReqsW haltServerW).length
      = haltReqsW.length :=
  ⟨by decide, by decide,
   (haltOnFailure_pads_skipped haltOptsW haltReqsW haltServerW
      (by decide) (by decide)).1⟩

/-- States of a LoginAttempt (spec sections 3 and 4.6). -/
inductive AttemptState where
  | idle
  | awaitingCallback
  | succeeded
  | timedOut
  | failed
  deriving Repr, DecidableEq

/-- Content of a login attempt's result slot: the access token on
success, or a login-flow error. -/
inductive LoginOutcome where
  | token (access_token : String)
  | loginFailed (e : RpcError)
  deriving Repr, DecidableEq

/-- A LoginAttempt (spec section 3): state, deadline and result slot. -/
structure LoginAttempt where
  id : Nat
  state : AttemptState
  deadline : Nat
  result : Option LoginOutcome
  deriving Repr, DecidableEq

/-- Modelled from the spec: the Login Flow Controller (spec section
4.6) holds at most one live attempt (`current`), the settled attempts
(`history`, each destroyed-on-resolution attempt with its terminal
state and result), an id counter and a clock. -/
structure LoginController where
  current : Option LoginAttempt
  history : List LoginAttempt
  nextId : Nat
  now : Nat
  deriving Repr, DecidableEq

def LoginController.init : LoginController := ⟨none, [], 0, 0⟩

/-- The 2-minute deadline of the magic-link flow, in milliseconds
(src/electron.env.d.ts lines 382-400). -/
def loginDeadlineMs : Nat := 120000

/-- Modelled from the spec: `magicLogin` fails immediately with
`AlreadyInProgressError` when an attempt is already awaiting its
callback, leaving the controller unchanged; otherwise it arms the
deadline and transitions to AwaitingCallback, returning the new
attempt's id (spec section 4.6). -/
def LoginController.magicLogin (c : LoginController) :
    Except RpcError Nat × LoginController :=
  match c.current with
  | some _ => (Except.error RpcError.alreadyInProgressError, c)
  | none =>
      (Except.ok c.nextId,
       { c with
          current := some
            ⟨c.nextId, AttemptState.awaitingCallback,
             c.now + loginDeadlineMs, none⟩,
          nextId := c.nextId + 1 })

/-- Modelled from the spec: resolving the live attempt writes its
result slot, records the terminal state, and returns the controller to
Idle (current cleared, single-attempt lock released; spec section
4.6). -/
def LoginController.settle (c : LoginController) (s : AttemptState)
    (r : LoginOutcome) : LoginController :=
  match c.current with
  | none => c
  | some a =>
      { c with
          current := none,
          history := c.history ++ [{ a with state := s, result := some r }] }

/-- Modelled from the spec: a well-formed callback resolves the future
with the access token and transitions to Succeeded. -/
def LoginController.callbackOk (c : LoginController) (tok : String) :
    LoginController :=
  c.settle AttemptState.succeeded (LoginOutcome.token tok)

/-- Modelled from the spec: a malformed callback transitions to Failed
and fails the future with `InvalidCallbackError`. -/
def LoginController.callbackBad (c : LoginController) : LoginController :=
  c.settle AttemptState.failed
    (LoginOutcome.loginFailed RpcError.invalidCallbackError)

/-- Modelled from the spec: deadline expiry transitions to TimedOut
and fails the future with `TimeoutError`. -/
def LoginController.timeoutFire (c : LoginController) : LoginController :=
  c.settle AttemptState.timedOut
    (LoginOutcome.loginFailed RpcError.timeoutError)

/-- Events of the Login Flow Controller. -/
inductive LoginEvent where
  | login
  | callbackOk (tok : String)
  | callbackBad
  | timeoutFire
  | tickL (dt : Nat)
  deriving Repr, DecidableEq

def LoginController.stepL (c : LoginController) : LoginEvent → LoginController
  | LoginEvent.login => (c.magicLogin).2
  | LoginEvent.callbackOk t => c.callbackOk t
  | LoginEvent.callbackBad => c.callbackBad
  | LoginEvent.timeoutFire => c.timeoutFire
  | LoginEvent.tickL dt => { c with now := c.now + dt }

/-- The controller states reachable from the initial Idle state. -/
inductive LoginController.Reachable : LoginController → Prop where
  | init : LoginController.Reachable LoginController.init
  | step (c : LoginController) (e : LoginEvent) :
      LoginController.Reachable c → LoginController.Reachable (c.stepL e)

/-- All attempts alive or recorded by the controller. -/
def LoginController.attempts (c : LoginController) : List LoginAttempt :=
  c.current.toList ++ c.history

/-- Number of attempts in state AwaitingCallback, application-wide. -/
def LoginController.awaitingCount (c : LoginController) : Nat :=
  (c.attempts.filter
    (fun a => a.state == AttemptState.awaitingCallback)).length

/-- Helper: in every reachable state, every settled attempt in the
history is in a terminal state, never AwaitingCallback. -/
theorem reachable_history_terminal (c : LoginController)
    (h : c.Reachable) :
    ∀ a ∈ c.history, a.state ≠ AttemptState.awaitingCallback := by
  induction h with
  | init => intro a ha; cases ha
  | step c e _ ih =>
    cases e with
    | login =>
      intro a ha
      unfold LoginController.stepL LoginController.magicLogin at ha
      cases hc : c.current with
      | some a0 => rw [hc] at ha; exact ih a ha
      | none => rw [hc] at ha; exact ih a ha
    | callbackOk t =>
      intro a ha
      unfold LoginController.stepL LoginController.callbackOk
        LoginController.settle at ha
      cases hc : c.current with
      | none => rw [hc] at ha; exact ih a ha
      | some a0 =>
        rw [hc] at ha
        rcases List.mem_append.mp ha with hmem | hmem
        · exact ih a hmem
        · rcases List.mem_singleton.mp hmem with rfl
          intro hcontra
          cases hcontra
    | callbackBad =>
      intro a ha
      unfold LoginController.stepL LoginController.callbackBad
        LoginController.settle at ha
      cases hc : c.current with
      | none => rw [hc] at ha; exact ih a ha
      | some a0 =>
        rw [hc] at ha
        rcases List.mem_append.mp ha with hmem | hmem
        · exact ih a hmem
        · rcases List.mem_singleton.mp hmem with rfl
          intro hcontra
          cases hcontra
    | timeoutFire =>
      intro a ha
      unfold LoginController.stepL LoginController.timeoutFire
        LoginController.settle at ha
      cases hc : c.current with
      | none => rw [hc] at ha; exact ih a ha
      | some a0 =>
        rw [hc] at ha
        rcases List.mem_append.mp ha with hmem | hmem
        · exact ih a hmem
        · rcases List.mem_singleton.mp hmem with rfl
          intro hcontra
          cases hcontra
    | tickL dt => intro a ha; exact ih a ha

/-- Claim C4: in every reachable controller state at most one
LoginAttempt is AwaitingCallback application-wide, and a `magicLogin`
invoked while an attempt is live fails immediately with
`AlreadyInProgressError`, leaving the controller (and so the first
attempt) unaltered. -/
theorem single_awaiting_login_attempt (c : LoginController)
    (h : c.Reachable) :
    c.awaitingCount ≤ 1 ∧
    ∀ a, c.current = some a →
      c.magicLogin = (Except.error RpcError.alreadyInProgressError, c) := by
  constructor
  · have hterm := reachable_history_terminal c h
    unfold LoginController.awaitingCount LoginController.attempts
    rw [List.filter_append]
    have hhist :
        (c.history.filter
          (fun a => a.state == AttemptState.awaitingCallback)) = [] := by
      rw [List.filter_eq_nil_iff]
      intro a ha hbeq
      exact hterm a ha (eq_of_beq hbeq)
    rw [List.length_append, hhist]
    cases c.current with
    | none => simp
    | some a =>
      simp only [Option.toList_some, List.length_nil, Nat.add_zero]
      cases ha : a.state == AttemptState.awaitingCallback
      · simp [List.filter, ha]
      · simp [List.filter, ha]
  · intro a ha
    unfold LoginController.magicLogin
    rw [ha]

/-- Witness for C4: after one `magicLogin` from the initial state, the
lock is held and a second `magicLogin` is rejected unchanged. -/
theorem single_awaiting_login_attempt_witness :
    (LoginController.init.stepL LoginEvent.login).Reachable ∧
    (LoginController.init.stepL LoginEvent.login).awaitingCount ≤ 1 :=
  have h : (LoginController.init.stepL LoginEvent.login).Reachable :=
    LoginController.Reachable.step LoginController.init LoginEvent.login
      LoginController.Reachable.init
  ⟨h, (single_awaiting_login_attempt
        (LoginController.init.stepL LoginEvent.login) h).1⟩

/-- Claim C5: when the 2-minute deadline fires with no callback, the
live attempt transitions to TimedOut with its future failed by
`TimeoutError`, the controller returns to Idle, and a subsequent
`magicLogin` proceeds normally (starting a fresh AwaitingCallback
attempt instead of failing with `AlreadyInProgressError`). -/
theorem magic_login_timeout_releases_lock (c : LoginController)
    (a : LoginAttempt) (hc : c.current = some a) :
    (c.timeoutFire).current = none ∧
    (c.timeoutFire).history
      = c.history ++
        [{ a with
            state := AttemptState.timedOut,
            result := some (LoginOutcome.loginFailed RpcError.timeoutError) }] ∧
    ((c.timeoutFire).magicLogin).1 = Except.ok (c.timeoutFire).nextId ∧
    (((c.timeoutFire).magicLogin).2).current
      = some ⟨(c.timeoutFire).nextId, AttemptState.awaitingCallback,
          (c.timeoutFire).now + loginDeadlineMs, none⟩ := by
  unfold LoginController.timeoutFire LoginController.settle
  rw [hc]
  refine ⟨rfl, rfl, ?_, ?_⟩
  · unfold LoginController.magicLogin
    rfl
  · unfold LoginController.magicLogin
    rfl

/-- Witness for C5 at the concrete controller holding one live attempt
started from the initial state. -/
theorem magic_login_timeout_releases_lock_witness :
    (LoginController.init.stepL LoginEvent.login).current
      = some ⟨0, AttemptState.awaitingCallback, loginDeadlineMs, none⟩ ∧
    ((LoginController.init.stepL LoginEvent.login).timeoutFire).current
      = none ∧
    (((LoginController.init.stepL
        LoginEvent.login).timeoutFire).magicLogin).1
      = Except.ok
          ((LoginController.init.stepL LoginEvent.login).timeoutFire).nextId :=
  ⟨by decide,
   (magic_login_timeout_releases_lock
      (LoginController.init.stepL LoginEvent.login)
      ⟨0, AttemptState.awaitingCallback, loginDeadlineMs, none⟩
      (by decide)).1,
   (magic_login_timeout_releases_lock
      (LoginController.init.stepL LoginEvent.login)
      ⟨0, AttemptState.awaitingCallback, loginDeadlineMs, none⟩
      (by decide)).2.2.1⟩

/-- Connection lifecycle states (spec section 3). -/
inductive ConnectionState where
  | disconnected
  | connecting
  | identifying
  | connected
  | closing
  deriving Repr, DecidableEq

/-- Modelled from the spec: the RPC Proxy Facade composing the
Transport's connection state, the Correlator and the Event Hub
(spec section 4.5). -/
structure ObsClient where
  conn : ConnectionState
  endpoint : Option String
  correlator : Correlator
  hub : EventHub
  deriving Repr, DecidableEq

def ObsClient.init : ObsClient :=
  ⟨ConnectionState.disconnected, none, Correlator.init, EventHub.empty⟩

/-- Default endpoint of `connect`
(src/electron.env.d.ts line 538: defaults to ws://localhost:4444). -/
def defaultObsUrl : String := "ws://localhost:4444"

/-- Modelled from the spec: `connect` resolves the target endpoint —
the explicitly supplied url, or the declared default — and starts the
connection attempt (src/electron.env.d.ts lines 536-554). -/
def ObsClient.connect (c : ObsClient) (url : Option String)
    (_password : Option String) : ObsClient :=
  { c with
      conn := ConnectionState.connecting,
      endpoint := some (url.getD defaultObsUrl) }

/-- Modelled from the spec: `disconnect` tears down the socket and
connection state and cancels all pending calls, but keeps every
registered event listener (src/electron.env.d.ts lines 556-559,
spec section 4.1). -/
def ObsClient.disconnect (c : ObsClient) : ObsClient :=
  { c with
      conn := ConnectionState.disconnected,
      endpoint := none,
      correlator := c.correlator.connLost }

/-- Claim C9: `disconnect` leaves the Event Hub's subscription sets
unchanged — for every event name the registered handlers before and
after are identical, so listeners are reused on reconnect — while the
socket endpoint and connection state are torn down and the pending
table cleared. -/
theorem disconnect_preserves_subscriptions (c : ObsClient) :
    (∀ event : String,
      (c.disconnect).hub.handlersFor event = c.hub.handlersFor event) ∧
    (c.disconnect).hub = c.hub ∧
    (c.disconnect).conn = ConnectionState.disconnected ∧
    (c.disconnect).endpoint = none ∧
    (c.disconnect).correlator.pending = [] :=
  ⟨fun _ => rfl, rfl, rfl, rfl, rfl⟩

/-- Claim C10: `connect` invoked with no url attempts the connection
to ws://localhost:4444, the declared default endpoint; only an
explicitly supplied url overrides it. -/
theorem connect_defaults_to_localhost_4444 (c : ObsClient)
    (password : Option String) :
    (c.connect none password).endpoint = some "ws://localhost:4444" ∧
    defaultObsUrl = "ws://localhost:4444" ∧
    (∀ u : String, (c.connect (some u) password).endpoint = some u) ∧
    (c.connect none password).conn = ConnectionState.connecting :=
  ⟨rfl, rfl, fun _ => rfl, rfl⟩
